import Mathlib

/-!
Shallow embedding of the tool execution subsystem of the writers_toolkit
repository (src/tool-runner.js and the `start-tool-run` / `stop-tool` IPC
handlers in the main process file).

JavaScript strings are modelled as `List Char`.  Option bags (plain JS
objects used as string-keyed maps) are modelled as association lists in
insertion order, with JS property-set semantics (update in place when the
key exists, append otherwise).  Fresh uuidv4 identifiers are modelled by a
monotone counter: each call consumes the current counter value, which is
unique across the execution.  The filesystem (`fs.existsSync`) and
`path.resolve` are uninterpreted function parameters.
-/

namespace WritersToolkit

/-- JavaScript strings, modelled as their character sequence. -/
abbrev Str := List Char

/-- Embed a Lean string literal as a model string. -/
def str (s : String) : Str := s.data

/-- A JS option value: the spec restricts values to boolean, number, string. -/
inductive JsValue where
  | vBool : Bool → JsValue
  | vNum : Int → JsValue
  | vStr : Str → JsValue
deriving DecidableEq

/-- JS `String(value)` coercion for the three value shapes. -/
def jsToString : JsValue → Str
  | .vBool true => str "true"
  | .vBool false => str "false"
  | .vNum n => (toString n).data
  | .vStr s => s

/-- JS truthiness of a value (`false`, `0`, and `""` are falsy). -/
def jsTruthy : JsValue → Bool
  | .vBool b => b
  | .vNum n => decide (n ≠ 0)
  | .vStr s => decide (s ≠ [])

/-- JS truthiness of a possibly-absent property (`undefined` is falsy). -/
def jsTruthyOpt : Option JsValue → Bool
  | none => false
  | some v => jsTruthy v

/-- An option bag: JS object as association list in property insertion order. -/
abbrev Options := List (Str × JsValue)

/-- JS property read `o[k]`: first binding for the key, `undefined` if none. -/
def jsGet : Options → Str → Option JsValue
  | [], _ => none
  | (k', v') :: rest, k => if k' = k then some v' else jsGet rest k

/-- JS property write `o[k] = v`: update in place keeps the key's position
in `Object.entries` order; a fresh key is appended at the end. -/
def jsSet : Options → Str → JsValue → Options
  | [], k, v => [(k, v)]
  | (k', v') :: rest, k, v =>
      if k' = k then (k', v) :: rest else (k', v') :: jsSet rest k v

/-- JS `String.prototype.includes`: substring containment. -/
def containsSub (pat : Str) : Str → Bool
  | [] => List.isPrefixOf pat []
  | c :: rest => List.isPrefixOf pat (c :: rest) || containsSub pat rest

/-- JS `String.prototype.trim`: drop leading and trailing whitespace. -/
def jsTrim (l : Str) : Str :=
  ((l.dropWhile Char.isWhitespace).reverse.dropWhile Char.isWhitespace).reverse

/-- JS `s.split('\n')`. -/
def splitLines (l : Str) : List Str :=
  List.splitOnP (fun c => c == '\n') l

/-- `path.join` of two segments, for the simple segments the runner joins. -/
def pathJoin (a b : Str) : Str := a ++ str "/" ++ b

/-- `path.join(this.appRoot, 'tools', toolName)` from `runJavaScriptTool`. -/
def toolPathFor (appRoot toolName : Str) : Str :=
  pathJoin (pathJoin appRoot (str "tools")) toolName

/-- Decimal rendering of a run counter value, for tracking-file names. -/
def natToStr (n : Nat) : Str := (toString n).data

/-- `path.join(tempDir, runId + '.txt')` from `runTool`. -/
def trackingFileFor (tempDir : Str) (runId : Nat) : Str :=
  pathJoin tempDir (natToStr runId ++ str ".txt")

/-- Argv tokens contributed by a single option entry: the body of the
`for (const [name, value] of Object.entries(optionValues))` loop of
`runJavaScriptTool`. -/
def entryArgs (name : Str) (value : JsValue) : List Str :=
  if List.isPrefixOf (str "--") name then
    match value with
    | .vBool b => if b then [name] else []
    | _ => [name, jsToString value]
  else if name = str "input_file" then
    [jsToString value]
  else if name = str "output_file" then
    [str "--" ++ name, jsToString value]
  else
    [str "--" ++ name, jsToString value]

/-- Argv tokens of the whole option bag, in `Object.entries` order. -/
def optionArgs (m : Options) : List Str :=
  (m.map (fun p => entryArgs p.1 p.2)).flatten

/-- The argument vector `runJavaScriptTool` passes to `spawn('node', args)`
for the generic path: script path first, then the translated options. -/
def jsToolArgs (toolPath : Str) (options : Options) : List Str :=
  toolPath :: optionArgs options

/-- The bespoke argument vector `runTokensWordsCounter` builds (after the
`input_file` guard has succeeded): `--text_file`, optional `--save_dir`,
optional `--verbose`, and the `--output_tracking` pass-through. -/
def counterArgs (toolPath : Str) (o : Options) : List Str :=
  [toolPath, str "--text_file",
    jsToString ((jsGet o (str "input_file")).getD (.vStr []))]
  ++ (if jsTruthyOpt (jsGet o (str "save_dir")) then
        [str "--save_dir", jsToString ((jsGet o (str "save_dir")).getD (.vStr []))]
      else [])
  ++ (if jsTruthyOpt (jsGet o (str "verbose")) then [str "--verbose"] else [])
  ++ (if jsTruthyOpt (jsGet o (str "--output_tracking")) then
        [str "--output_tracking",
          jsToString ((jsGet o (str "--output_tracking")).getD (.vStr []))]
      else [])

/-- The rejection conditions of the start path, with the messages the code
wraps in `new Error(...)`. -/
inductive RunError where
  | unsupportedToolType : Str → RunError
  | toolNotFound : Str → RunError
  | missingInputFile : RunError
deriving DecidableEq

/-- The `message` of the `Error` the start path rejects with. -/
def errMessage : RunError → Str
  | .unsupportedToolType t => str "Unsupported tool type: " ++ t
  | .toolNotFound p => str "Tool not found: " ++ p
  | .missingInputFile => str "Missing required parameter: input_file"

/-- Outcome of the synchronous start phase of `ToolRunner.runTool`: the
registered run id on success, the new uuid counter, the registry after the
call, and the `spawn` invocations performed (command and argument vector). -/
structure StartResult where
  res : Except RunError Nat
  gen' : Nat
  reg' : List Nat
  spawns : List (Str × List Str)

/-- Synchronous start phase of `ToolRunner.runTool` /
`runJavaScriptTool` / `runTokensWordsCounter`: generate the run id and
tracking file, copy the options and inject `--output_tracking`, dispatch on
the `.js` suffix, check the tool path on disk, special-case
`tokens_words_counter.js` (requiring a truthy `input_file`), build argv,
spawn, and register the process handle under the run id. -/
def runToolStart (fsEx : Str → Bool) (appRoot tempDir : Str) (gen : Nat)
    (reg : List Nat) (toolName : Str) (optionValues : Options) : StartResult :=
  let runId := gen
  let gen' := gen + 1
  let trackingFile := trackingFileFor tempDir runId
  let options := jsSet optionValues (str "--output_tracking") (.vStr trackingFile)
  if List.isSuffixOf (str ".js") toolName then
    let toolPath := toolPathFor appRoot toolName
    if fsEx toolPath then
      if toolName = str "tokens_words_counter.js" then
        if jsTruthyOpt (jsGet options (str "input_file")) then
          { res := .ok runId, gen' := gen', reg' := runId :: reg,
            spawns := [(str "node", str "--no-warnings" :: counterArgs toolPath options)] }
        else
          { res := .error .missingInputFile, gen' := gen', reg' := reg, spawns := [] }
      else
        { res := .ok runId, gen' := gen', reg' := runId :: reg,
          spawns := [(str "node", jsToolArgs toolPath options)] }
    else
      { res := .error (.toolNotFound toolPath), gen' := gen', reg' := reg,
        spawns := [] }
  else
    { res := .error (.unsupportedToolType toolName), gen' := gen', reg' := reg,
      spawns := [] }

/-- Outcome of the `start-tool-run` IPC handler: the run id string it
returns to the renderer, and the start phase it triggered.  The handler
draws its own uuid first (`const runId = uuidv4()`), then calls
`toolRunner.runTool`, whose first action is to draw another uuid. -/
structure IpcStartResult where
  returnedRunId : Nat
  inner : StartResult

/-- The `start-tool-run` IPC handler composed with the start phase of
`runTool`. -/
def startToolRunIpc (fsEx : Str → Bool) (appRoot tempDir : Str) (gen : Nat)
    (reg : List Nat) (toolName : Str) (optionValues : Options) : IpcStartResult :=
  { returnedRunId := gen,
    inner := runToolStart fsEx appRoot tempDir (gen + 1) reg toolName optionValues }

/-- `ToolRunner.stopTool`: look up the handle; if present, kill it, delete
the registry entry and return true; otherwise return false. -/
def stopTool (reg : List Nat) (runId : Nat) : Bool × List Nat :=
  if reg.contains runId then (true, reg.filter (fun x => x ≠ runId))
  else (false, reg)

/-- One data event on a child process's stdout or stderr stream, carrying
the decoded text chunk. -/
inductive ChunkEv where
  | out : Str → ChunkEv
  | err : Str → ChunkEv

/-- State of one run's output relay: the two accumulators (`stdout += text`,
`stderr += text`), the chunks delivered to the sink from each stream
(`errLog` records a delivered stderr chunk by its raw text, i.e. with the
`ERROR: ` tag stripped), and the full delivered sequence in order (stderr
entries tagged as delivered). -/
structure RelayState where
  stdout : Str
  stderr : Str
  outLog : List Str
  errLog : List Str
  fullLog : List Str
deriving DecidableEq

/-- The warning marker `runTokensWordsCounter` filters out of its stderr
delivery. -/
def moduleWarningMarker : Str := str "MODULE_TYPELESS_PACKAGE_JSON"

/-- Initial relay state: `let stdout = ''; let stderr = ''` and no
deliveries yet. -/
def relayInit : RelayState := ⟨[], [], [], [], []⟩

/-- The `data` handlers of `runJavaScriptTool` (with `fw = false`) and of
`runTokensWordsCounter` (with `fw = true`, which accumulates every stderr
chunk but suppresses delivery of chunks containing the module warning
marker). -/
def relayStep (fw : Bool) (st : RelayState) : ChunkEv → RelayState
  | .out s =>
      { st with stdout := st.stdout ++ s, outLog := st.outLog ++ [s],
                fullLog := st.fullLog ++ [s] }
  | .err s =>
      if fw && containsSub moduleWarningMarker s then
        { st with stderr := st.stderr ++ s }
      else
        { st with stderr := st.stderr ++ s, errLog := st.errLog ++ [s],
                  fullLog := st.fullLog ++ [str "ERROR: " ++ s] }

/-- Process a sequence of stream events from a given relay state. -/
def relayFrom (fw : Bool) (st : RelayState) : List ChunkEv → RelayState
  | [] => st
  | ev :: rest => relayFrom fw (relayStep fw st ev) rest

/-- Process a run's whole event sequence from the initial state. -/
def relay (fw : Bool) (evs : List ChunkEv) : RelayState :=
  relayFrom fw relayInit evs

/-- The stdout chunks of an event sequence, in arrival order. -/
def outChunks (evs : List ChunkEv) : List Str :=
  evs.filterMap (fun ev => match ev with | .out s => some s | .err _ => none)

/-- The stderr chunks of an event sequence, in arrival order. -/
def errChunks (evs : List ChunkEv) : List Str :=
  evs.filterMap (fun ev => match ev with | .out _ => none | .err s => some s)

/-- The stderr chunks the relay delivers (raw text): all of them for the
generic runner, only the non-warning ones for the counter runner. -/
def deliveredErrChunks (fw : Bool) (evs : List ChunkEv) : List Str :=
  evs.filterMap (fun ev =>
    match ev with
    | .out _ => none
    | .err s => if fw && containsSub moduleWarningMarker s then none else some s)

/-- What one event causes to be delivered through the sink, if anything:
stdout chunks raw, stderr chunks with the `ERROR: ` tag. -/
def renderEv (fw : Bool) : ChunkEv → Option Str
  | .out s => some s
  | .err s =>
      if fw && containsSub moduleWarningMarker s then none
      else some (str "ERROR: " ++ s)

/-- First synthetic close message:
`'\nProcess finished with return code ' + code`. -/
def finMsg1 (code : Int) : Str :=
  str "\nProcess finished with return code " ++ (toString code).data

/-- Second synthetic close message, the finished marker:
`'\nTool finished with exit code: ' + code`. -/
def finMsg2 (code : Int) : Str :=
  str "\nTool finished with exit code: " ++ (toString code).data

/-- Artifact resolution performed in the `close` handler: absent tracking
file yields `[]`; otherwise split the text on line breaks, keep lines whose
trim is nonempty, resolve each trimmed line, and keep only paths that exist
on disk. -/
def resolveArtifacts (fsEx : Str → Bool) (resolvePath : Str → Str) :
    Option Str → List Str
  | none => []
  | some content =>
      (((splitLines content).filter (fun line => jsTrim line ≠ [])).map
        (fun line => resolvePath (jsTrim line))).filter fsEx

/-- Modelled from the spec's wording of the Artifact Tracker contract
(section 4.4): "reads it as text, splits on line breaks, trims each line,
discards blank lines, resolves each remaining line to an absolute path, and
filters out any path that does not exist on disk". Used only to compare
with `resolveArtifacts`, which is translated from the source. -/
def specArtifacts (fsEx : Str → Bool) (resolvePath : Str → Str)
    (content : Str) : List Str :=
  ((((splitLines content).map jsTrim).filter (fun line => line ≠ [])).map
    resolvePath).filter fsEx

/-- The result record the run's promise resolves with:
`{ stdout, stderr, createdFiles, code }`. -/
structure RunFinal where
  stdout : Str
  stderr : Str
  createdFiles : List Str
  code : Int
deriving DecidableEq

/-- Outcome of the `close` handler: registry after the delete, the full
delivered sequence of the run (chunks then the two synthetic messages), and
the resolved result record. -/
structure CloseResult where
  reg' : List Nat
  delivered : List Str
  result : RunFinal

/-- The `close` handler of `runJavaScriptTool`: delete the registry entry,
deliver the two synthetic messages after all chunk deliveries, resolve the
tracking file into `createdFiles`, and resolve the promise with the result
record. -/
def closeRun (fsEx : Str → Bool) (resolvePath : Str → Str) (reg : List Nat)
    (runId : Nat) (st : RelayState) (code : Int) (tracking : Option Str) :
    CloseResult :=
  { reg' := reg.filter (fun x => x ≠ runId),
    delivered := st.fullLog ++ [finMsg1 code, finMsg2 code],
    result := { stdout := st.stdout, stderr := st.stderr,
                createdFiles := resolveArtifacts fsEx resolvePath tracking,
                code := code } }

/-- Heap of JS objects (option bags), making object identity and in-place
mutation explicit: a reference is an index into the heap. -/
abbrev OptHeap := List Options

/-- The options phase of `runTool`:
`const options = { ...optionValues }; options['--output_tracking'] = trackingFile;`
— allocate a shallow copy of the caller's object, then write the tracking
key through the new reference only.  Returns the heap after the phase and
the reference to the new object. -/
def spreadSetTracking (heap : OptHeap) (callerRef : Nat) (trackingFile : Str) :
    OptHeap × Nat :=
  let optionValues := heap.getD callerRef []
  let heap1 := heap ++ [optionValues]
  let optionsRef := heap.length
  let heap2 := heap1.set optionsRef
    (jsSet optionValues (str "--output_tracking") (.vStr trackingFile))
  (heap2, optionsRef)

/-! ## Helper lemmas -/

theorem relayFrom_spec (fw : Bool) (evs : List ChunkEv) : ∀ st : RelayState,
    relayFrom fw st evs =
      { stdout := st.stdout ++ (outChunks evs).flatten,
        stderr := st.stderr ++ (errChunks evs).flatten,
        outLog := st.outLog ++ outChunks evs,
        errLog := st.errLog ++ deliveredErrChunks fw evs,
        fullLog := st.fullLog ++ evs.filterMap (renderEv fw) } := by
  induction evs with
  | nil =>
    intro st
    simp [relayFrom, outChunks, errChunks, deliveredErrChunks]
  | cons ev rest ih =>
    intro st
    cases ev with
    | out s =>
      simp [relayFrom, relayStep, ih, outChunks, errChunks, deliveredErrChunks,
        renderEv, List.filterMap_cons]
    | err s =>
      cases fw with
      | false =>
        simp [relayFrom, relayStep, ih, outChunks, errChunks,
          deliveredErrChunks, renderEv, List.filterMap_cons]
      | true =>
        by_cases hc : containsSub moduleWarningMarker s = true
        · simp [relayFrom, relayStep, hc, ih, outChunks, errChunks,
            deliveredErrChunks, renderEv, List.filterMap_cons]
        · simp only [Bool.not_eq_true] at hc
          simp [relayFrom, relayStep, hc, ih, outChunks, errChunks,
            deliveredErrChunks, renderEv, List.filterMap_cons]

theorem relay_spec (fw : Bool) (evs : List ChunkEv) :
    relay fw evs =
      { stdout := (outChunks evs).flatten,
        stderr := (errChunks evs).flatten,
        outLog := outChunks evs,
        errLog := deliveredErrChunks fw evs,
        fullLog := evs.filterMap (renderEv fw) } := by
  simp [relay, relayFrom_spec, relayInit]

theorem jsGet_jsSet_ne (m : Options) (k k' : Str) (v : JsValue)
    (h : k' ≠ k) : jsGet (jsSet m k v) k' = jsGet m k' := by
  have hks : ¬ k = k' := fun e => h e.symm
  induction m with
  | nil => simp [jsSet, jsGet, hks]
  | cons p rest ih =>
    obtain ⟨k0, v0⟩ := p
    by_cases hk : k0 = k
    · subst hk
      simp [jsSet, jsGet, hks]
    · by_cases hk' : k0 = k'
      · subst hk'
        simp [jsSet, jsGet, hk]
      · simp [jsSet, jsGet, hk, hk', ih]

theorem contains_filter_ne (reg : List Nat) (id : Nat) :
    (reg.filter (fun x => x ≠ id)).contains id = false := by
  induction reg with
  | nil => rfl
  | cons a t ih =>
    by_cases h : a = id
    · simp [List.filter_cons, h, ih]
    · have h' : ¬ id = a := fun e => h e.symm
      simp [List.filter_cons, h, h', ih]

theorem entryArgs_tracking (tf : Str) :
    entryArgs (str "--output_tracking") (.vStr tf) = [str "--output_tracking", tf] := by
  have h : List.isPrefixOf (str "--") (str "--output_tracking") = true := by decide
  simp [entryArgs, h, jsToString]

theorem optionArgs_cons (k : Str) (v : JsValue) (rest : Options) :
    optionArgs ((k, v) :: rest) = entryArgs k v ++ optionArgs rest := by
  simp [optionArgs]

theorem optionArgs_jsSet_tracking (tf : Str) (m : Options) :
    ∃ l r, optionArgs (jsSet m (str "--output_tracking") (.vStr tf)) =
      l ++ [str "--output_tracking", tf] ++ r := by
  induction m with
  | nil =>
    refine ⟨[], [], ?_⟩
    simp [jsSet, optionArgs, entryArgs_tracking]
  | cons p rest ih =>
    obtain ⟨k0, v0⟩ := p
    by_cases hk : k0 = str "--output_tracking"
    · subst hk
      refine ⟨[], optionArgs rest, ?_⟩
      simp [jsSet, optionArgs_cons, entryArgs_tracking]
    · obtain ⟨l, r, hlr⟩ := ih
      refine ⟨entryArgs k0 v0 ++ l, r, ?_⟩
      simp [jsSet, hk, optionArgs_cons, hlr]

theorem artifact_pipeline (fsEx : Str → Bool) (rp : Str → Str) (l : List Str) :
    ((l.filter (fun s => jsTrim s ≠ [])).map (fun s => rp (jsTrim s))).filter fsEx =
    (((l.map jsTrim).filter (fun s => s ≠ [])).map rp).filter fsEx := by
  induction l with
  | nil => rfl
  | cons s t ih =>
    by_cases h : jsTrim s = []
    all_goals
      simp only [ne_eq, decide_not] at ih
      simp [List.filter_cons, List.map_cons, h, ih]

theorem errChunks_out_cons (s : Str) (rest : List ChunkEv) :
    errChunks (.out s :: rest) = errChunks rest := by
  simp [errChunks, List.filterMap_cons]

theorem errChunks_err_cons (s : Str) (rest : List ChunkEv) :
    errChunks (.err s :: rest) = s :: errChunks rest := by
  simp [errChunks, List.filterMap_cons]

theorem deliveredErrChunks_out_cons (fw : Bool) (s : Str) (rest : List ChunkEv) :
    deliveredErrChunks fw (.out s :: rest) = deliveredErrChunks fw rest := by
  simp [deliveredErrChunks, List.filterMap_cons]

theorem deliveredErrChunks_err_cons (fw : Bool) (s : Str) (rest : List ChunkEv) :
    deliveredErrChunks fw (.err s :: rest) =
      (if fw && containsSub moduleWarningMarker s then [] else [s]) ++
        deliveredErrChunks fw rest := by
  cases fw with
  | false => simp [deliveredErrChunks, List.filterMap_cons]
  | true =>
    by_cases hc : containsSub moduleWarningMarker s = true
    · simp [deliveredErrChunks, List.filterMap_cons, hc]
    · simp only [Bool.not_eq_true] at hc
      simp [deliveredErrChunks, List.filterMap_cons, hc]

theorem deliveredErrChunks_false (evs : List ChunkEv) :
    deliveredErrChunks false evs = errChunks evs := by
  induction evs with
  | nil => rfl
  | cons ev rest ih =>
    cases ev with
    | out s => rw [deliveredErrChunks_out_cons, errChunks_out_cons, ih]
    | err s =>
      rw [deliveredErrChunks_err_cons, errChunks_err_cons, ih]
      simp

theorem deliveredErrChunks_true (evs : List ChunkEv) :
    deliveredErrChunks true evs =
      (errChunks evs).filter (fun s => !(containsSub moduleWarningMarker s)) := by
  induction evs with
  | nil => rfl
  | cons ev rest ih =>
    cases ev with
    | out s => rw [deliveredErrChunks_out_cons, errChunks_out_cons, ih]
    | err s =>
      rw [deliveredErrChunks_err_cons, errChunks_err_cons, List.filter_cons, ih]
      by_cases hc : containsSub moduleWarningMarker s = true
      · simp [hc]
      · simp only [Bool.not_eq_true] at hc
        simp [hc]

theorem set_append_last {α : Type} (heap : List α) (o v : α) :
    (heap ++ [o]).set heap.length v = heap ++ [v] := by
  induction heap with
  | nil => rfl
  | cons a t ih => simp [List.set, ih]

theorem getD_append_lt {α : Type} (l l' : List α) (d : α) (n : Nat)
    (h : n < l.length) : (l ++ l').getD n d = l.getD n d := by
  induction l generalizing n with
  | nil => exact absurd h (by simp)
  | cons a t ih =>
    cases n with
    | zero => rfl
    | succ m =>
      have hm : m < t.length := by simpa using h
      exact ih m hm

theorem getD_append_len {α : Type} (l : List α) (v d : α) :
    (l ++ [v]).getD l.length d = v := by
  induction l with
  | nil => rfl
  | cons a t ih => exact ih

theorem not_mem_filter_ne (reg : List Nat) (id : Nat) :
    id ∉ reg.filter (fun x => x ≠ id) := by
  simp [List.mem_filter]

/-! ## Claim theorems -/

/-- Claim C1 (code bug shown on a failing input).  The claim says the runId
returned synchronously by start is the identifier under which the live
process handle is registered, so that `stop` on it succeeds.  In the code,
the `start-tool-run` IPC handler returns a uuid it draws itself, while
`ToolRunner.runTool` registers the process under a second, distinct uuid it
draws internally: starting a valid tool from a fresh state returns id 0,
registers the process under id 1, and `stopTool` on the returned id is a
no-op returning false even though the process is live (stopping the
internal id would succeed). -/
theorem c1_returned_runid_not_registered :
    (startToolRunIpc (fun _ => true) (str "app") (str "tmp") 0 []
      (str "sometool.js") []).returnedRunId = 0 ∧
    (startToolRunIpc (fun _ => true) (str "app") (str "tmp") 0 []
      (str "sometool.js") []).inner.res = .ok 1 ∧
    (startToolRunIpc (fun _ => true) (str "app") (str "tmp") 0 []
      (str "sometool.js") []).inner.reg' = [1] ∧
    stopTool [1] 0 = (false, [1]) ∧
    stopTool [1] 1 = (true, []) := by
  refine ⟨rfl, ?_, ?_, ?_, ?_⟩
  · show (runToolStart (fun _ => true) (str "app") (str "tmp") 1 []
      (str "sometool.js") []).res = .ok 1
    rfl
  · show (runToolStart (fun _ => true) (str "app") (str "tmp") 1 []
      (str "sometool.js") []).reg' = [1]
    rfl
  · rfl
  · rfl

/-- Claim C2, counterexample.  The claim says every stderr chunk is
delivered exactly once (tagged) so that delivered stderr with tags stripped
concatenates to the stderr accumulator.  In `runTokensWordsCounter` a
stderr chunk containing `MODULE_TYPELESS_PACKAGE_JSON` is appended to the
accumulator but never delivered to the sink, so the concatenation of
delivered stderr chunks differs from the accumulator. -/
theorem c2_counterexample :
    (relay true [ChunkEv.err (str "x MODULE_TYPELESS_PACKAGE_JSON y")]).errLog
      = [] ∧
    (relay true [ChunkEv.err (str "x MODULE_TYPELESS_PACKAGE_JSON y")]).stderr
      = str "x MODULE_TYPELESS_PACKAGE_JSON y" ∧
    (relay true
        [ChunkEv.err (str "x MODULE_TYPELESS_PACKAGE_JSON y")]).errLog.flatten
      ≠ (relay true
        [ChunkEv.err (str "x MODULE_TYPELESS_PACKAGE_JSON y")]).stderr := by
  refine ⟨rfl, rfl, ?_⟩
  intro h
  exact absurd (rfl.trans h) (by decide)

/-- Claim C2 as amended: for every run, each stdout chunk is accumulated
and delivered exactly once, so the concatenation of delivered stdout
chunks equals the stdout accumulator in both runners; each stderr chunk is
accumulated exactly once, and is delivered (with an `ERROR: ` tag) exactly
once in the generic runner, while `runTokensWordsCounter` delivers exactly
the stderr chunks that do not contain `MODULE_TYPELESS_PACKAGE_JSON`;
`errLog` records delivered stderr chunks with the tag stripped. -/
theorem c2_amended (fw : Bool) (evs : List ChunkEv) :
    (relay fw evs).outLog = outChunks evs ∧
    (relay fw evs).stdout = ((relay fw evs).outLog).flatten ∧
    (relay fw evs).stderr = (errChunks evs).flatten ∧
    (relay false evs).errLog = errChunks evs ∧
    (relay true evs).errLog =
      (errChunks evs).filter (fun s => !(containsSub moduleWarningMarker s)) := by
  refine ⟨?_, ?_, ?_, ?_, ?_⟩ <;>
    simp [relay_spec, deliveredErrChunks_false, deliveredErrChunks_true]

/-- Claim C3: translating a tool name and option mapping (with its tracking
file path) twice yields identical argv lists, and the argv always contains
the injected `--output_tracking` flag/value pair, whether or not the caller
supplied that key. -/
theorem c3_translate_deterministic (toolPath tf : Str) (m : Options) :
    jsToolArgs toolPath (jsSet m (str "--output_tracking") (.vStr tf)) =
      jsToolArgs toolPath (jsSet m (str "--output_tracking") (.vStr tf)) ∧
    ∃ l r, jsToolArgs toolPath (jsSet m (str "--output_tracking") (.vStr tf)) =
      l ++ [str "--output_tracking", tf] ++ r := by
  refine ⟨rfl, ?_⟩
  obtain ⟨l, r, h⟩ := optionArgs_jsSet_tracking tf m
  exact ⟨toolPath :: l, r, by simp [jsToolArgs, h]⟩

/-- Claim C4, counterexample.  The claim says a boolean `false` option
never contributes a flag token; but the boolean special case only applies
to names already starting with `--`: the entry `verbose ↦ false`
contributes the two tokens `--verbose` and `false` to argv. -/
theorem c4_counterexample :
    optionArgs [(str "verbose", JsValue.vBool false)] =
      [str "--verbose", str "false"] ∧
    optionArgs [(str "verbose", JsValue.vBool false)] ≠ [] := by
  exact ⟨rfl, by decide⟩

/-- Claim C4 as amended: for an option whose name already starts with the
`--` flag marker, value `false` contributes no token to argv and value
`true` contributes exactly one token, the flag alone. -/
theorem c4_amended (name : Str) (h : List.isPrefixOf (str "--") name = true) :
    entryArgs name (.vBool false) = [] ∧
    entryArgs name (.vBool true) = [name] ∧
    (∀ m : Options, optionArgs ((name, JsValue.vBool false) :: m) = optionArgs m) ∧
    (∀ m : Options,
      optionArgs ((name, JsValue.vBool true) :: m) = name :: optionArgs m) := by
  refine ⟨?_, ?_, ?_, ?_⟩
  · simp [entryArgs, h]
  · simp [entryArgs, h]
  · intro m; simp [optionArgs_cons, entryArgs, h]
  · intro m; simp [optionArgs_cons, entryArgs, h]

/-- Witness for C4's amended theorem at the concrete flag `--verbose`. -/
theorem c4_witness :
    entryArgs (str "--verbose") (.vBool false) = [] ∧
    entryArgs (str "--verbose") (.vBool true) = [str "--verbose"] :=
  ⟨(c4_amended (str "--verbose") (by decide)).1,
   (c4_amended (str "--verbose") (by decide)).2.1⟩

/-- Claim C5: artifact resolution returns `[]` without error when the
tracking file is absent, and otherwise computes exactly the spec's
pipeline — split on line breaks, trim each line, discard blank lines,
resolve each remaining line, keep only paths existing on disk, preserving
line order. -/
theorem c5_artifact_resolution (fsEx : Str → Bool) (rp : Str → Str) :
    resolveArtifacts fsEx rp none = [] ∧
    ∀ content, resolveArtifacts fsEx rp (some content) =
      specArtifacts fsEx rp content := by
  refine ⟨rfl, fun content => ?_⟩
  have hp := artifact_pipeline fsEx rp (splitLines content)
  simp only [ne_eq, decide_not] at hp
  simp only [resolveArtifacts, specArtifacts, ne_eq, decide_not]
  exact hp

/-- Claim C6: a start call whose tool identifier does not end in `.js`, or
whose resolved tool path does not exist on disk, yields a rejection, spawns
no child process, and leaves the live-run registry unchanged. -/
theorem c6_reject_no_spawn_no_register (fsEx : Str → Bool)
    (appRoot tempDir : Str) (gen : Nat) (reg : List Nat) (toolName : Str)
    (m : Options) :
    (List.isSuffixOf (str ".js") toolName = false →
      (runToolStart fsEx appRoot tempDir gen reg toolName m).res =
        .error (.unsupportedToolType toolName) ∧
      (runToolStart fsEx appRoot tempDir gen reg toolName m).reg' = reg ∧
      (runToolStart fsEx appRoot tempDir gen reg toolName m).spawns = []) ∧
    (List.isSuffixOf (str ".js") toolName = true →
      fsEx (toolPathFor appRoot toolName) = false →
      (runToolStart fsEx appRoot tempDir gen reg toolName m).res =
        .error (.toolNotFound (toolPathFor appRoot toolName)) ∧
      (runToolStart fsEx appRoot tempDir gen reg toolName m).reg' = reg ∧
      (runToolStart fsEx appRoot tempDir gen reg toolName m).spawns = []) := by
  constructor
  · intro h
    simp [runToolStart, h]
  · intro hjs hfs
    simp [runToolStart, hjs, hfs]

/-- Witness for C6 at two concrete failed starts: a non-`.js` identifier
and a `.js` identifier whose path is absent. -/
theorem c6_witness :
    (runToolStart (fun _ => false) (str "app") (str "tmp") 0 []
      (str "tool.py") []).reg' = [] ∧
    (runToolStart (fun _ => false) (str "app") (str "tmp") 0 []
      (str "tool.js") []).reg' = [] :=
  ⟨((c6_reject_no_spawn_no_register (fun _ => false) (str "app") (str "tmp")
      0 [] (str "tool.py") []).1 (by decide)).2.1,
   ((c6_reject_no_spawn_no_register (fun _ => false) (str "app") (str "tmp")
      0 [] (str "tool.js") []).2 (by decide) rfl).2.1⟩

/-- Claim C7: once a run is terminal — its close handler removed it from
the registry, or a prior `stopTool` on its id returned true — every
subsequent `stopTool` on that id is a no-op returning false. -/
theorem c7_terminal_stop_noop (fsEx : Str → Bool) (rp : Str → Str)
    (reg : List Nat) (id : Nat) (st : RelayState) (code : Int)
    (tr : Option Str) :
    stopTool (closeRun fsEx rp reg id st code tr).reg' id =
      (false, (closeRun fsEx rp reg id st code tr).reg') ∧
    ((stopTool reg id).1 = true →
      stopTool (stopTool reg id).2 id = (false, (stopTool reg id).2)) := by
  constructor
  · simp [closeRun, stopTool, not_mem_filter_ne]
  · intro h
    by_cases hm : id ∈ reg
    · simp [stopTool, hm, not_mem_filter_ne]
    · simp [stopTool, hm] at h

/-- Witness for C7: a stop that succeeded on a singleton registry makes the
next stop on the same id a no-op returning false. -/
theorem c7_witness :
    stopTool (stopTool [5] 5).2 5 = (false, (stopTool [5] 5).2) :=
  (c7_terminal_stop_noop (fun _ => true) (fun s => s) [5] 5 relayInit 0
    none).2 (by decide)

/-- Claim C8: on process exit the close handler delivers, after all
ordinary chunk deliveries, first the synthetic exit-code message and then
the finished marker, and the run resolves with the record of the two
accumulators, the resolved artifact list and the exit code. -/
theorem c8_close_messages_then_resolve (fsEx : Str → Bool) (rp : Str → Str)
    (reg : List Nat) (id : Nat) (evs : List ChunkEv) (code : Int)
    (tr : Option Str) :
    (closeRun fsEx rp reg id (relay false evs) code tr).delivered =
      evs.filterMap (renderEv false) ++ [finMsg1 code, finMsg2 code] ∧
    (closeRun fsEx rp reg id (relay false evs) code tr).result =
      { stdout := (outChunks evs).flatten,
        stderr := (errChunks evs).flatten,
        createdFiles := resolveArtifacts fsEx rp tr,
        code := code } := by
  constructor
  · simp [closeRun, relay_spec]
  · simp [closeRun, relay_spec]

/-- Claim C9: `runTool` copies the caller's option object before injecting
the tracking flag, so the caller's object is unchanged by the call while
the runner's own copy carries the extra `--output_tracking` entry. -/
theorem c9_caller_options_not_mutated (heap : OptHeap) (ref : Nat) (tf : Str)
    (h : ref < heap.length) :
    (spreadSetTracking heap ref tf).1.getD ref [] = heap.getD ref [] ∧
    (spreadSetTracking heap ref tf).1.getD (spreadSetTracking heap ref tf).2 [] =
      jsSet (heap.getD ref []) (str "--output_tracking") (.vStr tf) := by
  simp only [spreadSetTracking]
  constructor
  · rw [set_append_last]
    exact getD_append_lt heap
      [jsSet (heap.getD ref []) (str "--output_tracking") (.vStr tf)] [] ref h
  · rw [set_append_last]
    exact getD_append_len heap
      (jsSet (heap.getD ref []) (str "--output_tracking") (.vStr tf)) []

/-- Witness for C9 at a concrete one-object heap. -/
theorem c9_witness :
    (spreadSetTracking [[(str "a", JsValue.vBool true)]] 0 (str "t")).1.getD 0 []
      = [(str "a", JsValue.vBool true)] :=
  (c9_caller_options_not_mutated [[(str "a", JsValue.vBool true)]] 0 (str "t")
    (by decide)).1

/-- Claim C10: for `tokens_words_counter.js`, when the option mapping has
no truthy `input_file`, the start rejects with the message
`Missing required parameter: input_file`, spawns no process and registers
no run. -/
theorem c10_counter_missing_input (fsEx : Str → Bool) (appRoot tempDir : Str)
    (gen : Nat) (reg : List Nat) (m : Options)
    (hfs : fsEx (toolPathFor appRoot (str "tokens_words_counter.js")) = true)
    (hin : jsTruthyOpt (jsGet m (str "input_file")) = false) :
    (runToolStart fsEx appRoot tempDir gen reg
      (str "tokens_words_counter.js") m).res = .error .missingInputFile ∧
    errMessage .missingInputFile =
      str "Missing required parameter: input_file" ∧
    (runToolStart fsEx appRoot tempDir gen reg
      (str "tokens_words_counter.js") m).reg' = reg ∧
    (runToolStart fsEx appRoot tempDir gen reg
      (str "tokens_words_counter.js") m).spawns = [] := by
  have hget : jsGet (jsSet m (str "--output_tracking")
      (.vStr (trackingFileFor tempDir gen))) (str "input_file") =
      jsGet m (str "input_file") :=
    jsGet_jsSet_ne m (str "--output_tracking") (str "input_file") _ (by decide)
  have hjs : List.isSuffixOf (str ".js") (str "tokens_words_counter.js") = true :=
    by decide
  refine ⟨?_, rfl, ?_, ?_⟩ <;>
    simp [runToolStart, hjs, hfs, hget, hin]

/-- Witness for C10 at a concrete start with an empty option mapping. -/
theorem c10_witness :
    (runToolStart (fun _ => true) (str "app") (str "tmp") 0 []
      (str "tokens_words_counter.js") []).res = .error .missingInputFile :=
  (c10_counter_missing_input (fun _ => true) (str "app") (str "tmp") 0 [] []
    rfl rfl).1

end WritersToolkit
